import Mathlib

/-!
Verification of the packit-service handler dispatch / retry / propose-downstream
code against its specification.

The definitions below are a shallow embedding of:
  * `get_packit_commands_from_comment` and `CeleryTask`
    (packit_service/worker/handlers/abstract.py);
  * `ProposeDownstreamHandler` (`sync_branch`,
    `_get_or_create_propose_downstream_run`, `run`)
    (packit_service/worker/handlers/distgit.py);
  * the babysit reconciliation sweeps (modelled from the spec, since
    packit_service/worker/helpers/build/babysit.py is not among the sources;
    its integration tests are).

Machine strings are `List Char`; opaque identifiers (branch names, error
texts, URLs, run ids) are `Nat` where their content is irrelevant.
-/

/-! ## Comment parsing (abstract.py: get_packit_commands_from_comment) -/

/-- Python whitespace for `str.strip()` / `str.split()` (ASCII range). -/
def isPySpace (c : Char) : Bool :=
  c = ' ' || c = '\t' || c = '\n' || c = '\r' || c = '\x0b' || c = '\x0c'

/-- Python `s.strip()`: drop leading and trailing whitespace. -/
def pyStrip (s : List Char) : List Char :=
  ((s.dropWhile isPySpace).reverse.dropWhile isPySpace).reverse

/-- Python `s.split(maxsplit=n)`: split on runs of whitespace, at most `n`
splits, the last element keeping the remainder of the string. -/
def pySplitWs (maxsplit : Nat) (s : List Char) : List (List Char) :=
  match s.dropWhile isPySpace with
  | [] => []
  | c :: cs =>
    match maxsplit with
    | 0 => [c :: cs]
    | m + 1 =>
        ((c :: cs).takeWhile fun x => !isPySpace x) ::
          pySplitWs m ((c :: cs).dropWhile fun x => !isPySpace x)

/-- The loop body of `get_packit_commands_from_comment`: walk the lines,
strip each, skip blank ones, split the line with `maxsplit=3`; when the
first token is the configured bot-mention mark and something follows it,
return what follows; otherwise try the next line. -/
def findPackitCommand (pfx : List Char) : List (List Char) → List (List Char)
  | [] => []
  | l :: ls =>
    let line := pyStrip l
    if line.isEmpty then findPackitCommand pfx ls
    else
      match pySplitWs 3 line with
      | [] => findPackitCommand pfx ls
      | packitMark :: packitCommand =>
          if packitMark = pfx ∧ packitCommand ≠ [] then packitCommand
          else findPackitCommand pfx ls

/-- Embedding of `get_packit_commands_from_comment(comment, pfx)`
(abstract.py lines 194-211). -/
def get_packit_commands_from_comment (comment pfx : List Char) :
    List (List Char) :=
  let comment_parts := pyStrip comment
  if comment_parts.isEmpty then []
  else findPackitCommand pfx (comment_parts.splitOn '\n')

/-- A line qualifies when, after stripping, its first whitespace-delimited
token is the bot-mention mark and at least one further token follows. -/
def lineQualifies (pfx l : List Char) : Bool :=
  match pySplitWs 3 (pyStrip l) with
  | [] => false
  | packitMark :: packitCommand =>
      decide (packitMark = pfx) && !packitCommand.isEmpty

/-! ## CeleryTask (abstract.py lines 214-273) -/

/-- State of the Celery task wrapper that matters to the retry logic:
the attempt count supplied by the execution environment, the parsed
`CELERY_RETRY_LIMIT` environment override, and the hard-coded
`DEFAULT_RETRY_LIMIT` constant (packit_service.constants). -/
structure CeleryTask where
  retries : Nat
  envRetryLimit : Option Nat
  defaultRetryLimit : Nat
deriving DecidableEq

/-- Embedding of `CeleryTask.get_retry_limit`:
`int(getenv("CELERY_RETRY_LIMIT", DEFAULT_RETRY_LIMIT))`. -/
def CeleryTask.get_retry_limit (c : CeleryTask) : Nat :=
  c.envRetryLimit.getD c.defaultRetryLimit

/-- Embedding of `CeleryTask.is_last_try`:
`self.retries >= self.get_retry_limit()`. -/
def CeleryTask.is_last_try (c : CeleryTask) : Bool :=
  c.get_retry_limit ≤ c.retries

/-- The countdown `CeleryTask.retry` passes to `task.retry`:
`delay if delay is not None else 60 * 2**retries`. -/
def CeleryTask.retry_countdown (c : CeleryTask) (delay : Option Nat) : Nat :=
  delay.getD (60 * 2 ^ c.retries)

/-! ## ProposeDownstreamHandler (distgit.py) -/

/-- Status of one propose-downstream target
(`ProposeDownstreamTargetStatus`). -/
inductive TargetStatus where
  | queued
  | running
  | retry
  | submitted
  | error
deriving DecidableEq

/-- Status of the whole propose-downstream run (`ProposeDownstreamStatus`). -/
inductive RunStatus where
  | running
  | finished
  | error
deriving DecidableEq

/-- One `ProposeDownstreamTargetModel` row, with the fields the handler
touches. Timestamps are an abstract clock value; logs are tracked as a
set/unset flag. -/
structure Target where
  branch : Nat
  status : TargetStatus
  startTime : Option Nat
  finishedTime : Option Nat
  logsSet : Bool
  downstreamPrUrl : Option Nat
deriving DecidableEq

/-- One `ProposeDownstreamModel` row: aggregate status plus its targets. -/
structure ProposeDownstreamRun where
  status : RunStatus
  targets : List Target
deriving DecidableEq

/-- The `TaskResults` dictionary, reduced to the fields the claims talk
about. -/
structure TaskResults where
  success : Bool
  msg : String
deriving DecidableEq

/-- The skip test of `ProposeDownstreamHandler.run` (distgit.py 292-302):
a branch is skipped iff its status is not in
`[running, retry, queued]`. -/
def shouldSkip (s : TargetStatus) : Bool :=
  !(s = TargetStatus.running || s = TargetStatus.retry || s = TargetStatus.queued)

/-- What `self.api.sync_release` does for one branch, as seen by the
handler: it returns a pull request, raises
`PackitDownloadFailedException` (the archive is not downloadable yet),
or raises some other exception. -/
inductive SyncOutcome where
  | success (url : Nat)
  | downloadFailed (msg : Nat)
  | otherError (msg : Nat)
deriving DecidableEq

/-- Result of `ProposeDownstreamHandler.sync_branch` as seen by `run`:
a downstream pull request; `AbortProposeDownstream` raised after a retry
was scheduled (carrying the kwargs run id and the countdown); or an
exception propagated to the caller. -/
inductive SyncBranchResult where
  | pr (url : Nat)
  | abort (kwargsRunId : Nat) (countdown : Nat)
  | raised (msg : Nat)
deriving DecidableEq

/-- Embedding of `ProposeDownstreamHandler.sync_branch`
(distgit.py lines 173-209). On `PackitDownloadFailedException`, when the
attempt is not the last try, it schedules a Celery retry whose kwargs carry
`propose_downstream_run_id = model.id` with countdown `60 * 2**retries` and
raises `AbortProposeDownstream`; on the last try it re-raises the
exception. -/
def sync_branch (celery : CeleryTask) (runId : Nat) (outcome : SyncOutcome) :
    SyncBranchResult :=
  match outcome with
  | SyncOutcome.success url => SyncBranchResult.pr url
  | SyncOutcome.downloadFailed msg =>
      if celery.is_last_try then SyncBranchResult.raised msg
      else SyncBranchResult.abort runId (60 * 2 ^ celery.retries)
  | SyncOutcome.otherError msg => SyncBranchResult.raised msg

/-- Embedding of `_get_or_create_propose_downstream_run`
(distgit.py lines 240-257): with a `propose_downstream_run_id` in the kwargs
the existing run is fetched; otherwise a new run is created in status
`running` with one `queued` target per branch. -/
def get_or_create_propose_downstream_run
    (existing : Option ProposeDownstreamRun) (branches : List Nat) :
    ProposeDownstreamRun :=
  match existing with
  | some r => r
  | none =>
      { status := RunStatus.running
        targets := branches.map fun b =>
          { branch := b
            status := TargetStatus.queued
            startTime := none
            finishedTime := none
            logsSet := false
            downstreamPrUrl := none } }

/-- The loop over `propose_downstream_model.propose_downstream_targets` in
`ProposeDownstreamHandler.run` (distgit.py lines 290-363). Returns the
updated targets, the `errors` mapping (branch, error text) in loop order,
and `some results` when the loop returned early (the
`AbortProposeDownstream` branch), else `none`.

`env` gives the outcome of `sync_release` per branch; `now` is the clock
used for the start/finished timestamps of this invocation. -/
def processTargets (env : Nat → SyncOutcome) (celery : CeleryTask)
    (runId now : Nat) : List Target → List Target × List (Nat × Nat) × Option TaskResults
  | [] => ([], [], none)
  | t :: ts =>
    if shouldSkip t.status then
      let rest := processTargets env celery runId now ts
      (t :: rest.1, rest.2.1, rest.2.2)
    else
      let t1 : Target :=
        { t with status := TargetStatus.running, startTime := some now }
      match sync_branch celery runId (env t.branch) with
      | SyncBranchResult.pr url =>
          let t2 : Target :=
            { t1 with
              downstreamPrUrl := some url
              status := TargetStatus.submitted
              finishedTime := some now
              logsSet := true }
          let rest := processTargets env celery runId now ts
          (t2 :: rest.1, rest.2.1, rest.2.2)
      | SyncBranchResult.abort _ _ =>
          let t2 : Target :=
            { t1 with
              status := TargetStatus.retry
              finishedTime := some now
              logsSet := true }
          (t2 :: ts, [],
            some { success := true
                   msg := "Not able to download archive. Task will be retried." })
      | SyncBranchResult.raised msg =>
          let t2 : Target :=
            { t1 with
              status := TargetStatus.error
              finishedTime := some now
              logsSet := true }
          let rest := processTargets env celery runId now ts
          (t2 :: rest.1, (t.branch, msg) :: rest.2.1, rest.2.2)

/-- Embedding of `ProposeDownstreamHandler.run` (distgit.py lines 259-381)
from the point where the run model exists: process the targets; on an early
return (a scheduled retry) hand back its `TaskResults` with the run status
untouched; otherwise set the aggregate status from the collected `errors`
dictionary and report success accordingly. -/
def ProposeDownstreamHandler_run (env : Nat → SyncOutcome)
    (celery : CeleryTask) (runId now : Nat) (run : ProposeDownstreamRun) :
    ProposeDownstreamRun × TaskResults :=
  let out := processTargets env celery runId now run.targets
  match out.2.2 with
  | some res => ({ run with targets := out.1 }, res)
  | none =>
      if out.2.1.isEmpty then
        ({ run with targets := out.1, status := RunStatus.finished },
          { success := true, msg := "" })
      else
        ({ run with targets := out.1, status := RunStatus.error },
          { success := false, msg := "Propose downstream failed." })

/-! ## Reconciliation sweeps (babysit)

The module packit_service/worker/helpers/build/babysit.py is not among the
provided sources; only its integration tests
(tests/integration/test_babysit.py) are. The two sweeps below are therefore
modelled from the specification and checked against what those tests pin
down. -/

/-- Staleness cutoff of the reconciliation sweeps: 14 days, in seconds. -/
def stalenessCutoffSeconds : Nat := 14 * 24 * 60 * 60

/-- Status of a Testing Farm run target (`TestingFarmResult`), restricted to
the values the sweep deals with. -/
inductive TestingFarmResult where
  | new
  | queued
  | running
  | passed
  | failed
  | error
deriving DecidableEq

/-- One `TFTTestRunTargetModel` row as the sweep sees it. -/
structure TFTTestRun where
  pipelineId : Nat
  status : TestingFarmResult
  submittedTime : Nat
deriving DecidableEq

/-- Modelled from the spec: `check_pending_testing_farm_runs` (sweep 2 of
the Reconciliation Loop, babysit.py, absent from the sources). It fetches
all targets in states new/queued/running; for each one older than the
staleness cutoff it forces status `error` without querying the external
system; otherwise it queries by pipeline id and replays the live completion
path with the returned state. The second component records whether the
external system was queried. -/
def check_pending_testing_farm_run (now : Nat)
    (query : Nat → Option TestingFarmResult) (r : TFTTestRun) :
    TFTTestRun × Bool :=
  if r.status = TestingFarmResult.new ∨ r.status = TestingFarmResult.queued
      ∨ r.status = TestingFarmResult.running then
    if r.submittedTime + stalenessCutoffSeconds < now then
      ({ r with status := TestingFarmResult.error }, false)
    else
      match query r.pipelineId with
      | some res => ({ r with status := res }, true)
      | none => (r, true)
  else (r, false)

/-- Status of a Copr build target, as the strings the code stores. -/
inductive CoprBuildStatus where
  | pending
  | success
  | failure
  | error
deriving DecidableEq

/-- One `CoprBuildTargetModel` row as the sweep sees it. -/
structure CoprBuild where
  buildId : Nat
  status : CoprBuildStatus
  buildSubmittedTime : Nat
deriving DecidableEq

/-- What the external Copr query reports for a build id. -/
inductive CoprQueryResult where
  | notFound
  | stillRunning
  | completed (succeeded : Bool)
deriving DecidableEq

/-- Modelled from the spec: the per-target update of `update_copr_builds`
(sweep 1 of the Reconciliation Loop, babysit.py, absent from the sources).
A build whose external record is gone is marked `error`; a build submitted
longer ago than the staleness cutoff is forced to `error` regardless of the
query outcome (test_check_update_copr_builds_timeout pins this down for a
query that reports completion); otherwise a completed query fans out the
result and a still-running one leaves the build untouched. -/
def update_copr_build (now : Nat) (q : CoprQueryResult) (b : CoprBuild) :
    CoprBuild :=
  if b.buildSubmittedTime + stalenessCutoffSeconds < now then
    { b with status := CoprBuildStatus.error }
  else
    match q with
    | CoprQueryResult.notFound => { b with status := CoprBuildStatus.error }
    | CoprQueryResult.stillRunning => b
    | CoprQueryResult.completed ok =>
        { b with
          status := if ok then CoprBuildStatus.success
            else CoprBuildStatus.failure }

/-! ## Theorems about the retry policy (claims C1 and C6) -/

/-- Claim C1, counterexample: with `delay=None` at attempt count 0 the code
schedules `60 * 2^0 = 60` seconds (abstract.py line 263), not the 120
seconds the claim's `120 * 2^n` formula demands. -/
theorem c1_retry_default_delay_counterexample :
    CeleryTask.retry_countdown
      { retries := 0, envRetryLimit := none, defaultRetryLimit := 2 } none = 60 ∧
    (60 : Nat) ≠ 120 := by
  exact ⟨rfl, by decide⟩

/-- Claim C1, amended: the default delay of `CeleryTask.retry` with
`delay=None` is `60 * 2^attempt_count` seconds (60s, 120s, 240s, ...), this
default is monotonically non-decreasing in the attempt count, and the retry
scheduled by `ProposeDownstreamHandler.sync_branch` on the transient
download failure uses the same `60 * 2^attempt_count` countdown. -/
theorem c1_retry_default_delay_amended (c c' : CeleryTask) (runId msg : Nat) :
    c.retry_countdown none = 60 * 2 ^ c.retries ∧
    (c.retries ≤ c'.retries → c.retry_countdown none ≤ c'.retry_countdown none) ∧
    (c.is_last_try = false →
      sync_branch c runId (SyncOutcome.downloadFailed msg) =
        SyncBranchResult.abort runId (60 * 2 ^ c.retries)) := by
  refine ⟨rfl, fun h => ?_, fun h => ?_⟩
  · show 60 * 2 ^ c.retries ≤ 60 * 2 ^ c'.retries
    exact Nat.mul_le_mul_left 60 (Nat.pow_le_pow_right (by decide) h)
  · simp [sync_branch, h]

/-- Claim C6: `CeleryTask.is_last_try` is true iff the attempt count has
reached the retry limit, and false for all smaller counts; the limit comes
from the `CELERY_RETRY_LIMIT` environment override when present and from
the hard-coded default otherwise. -/
theorem c6_is_last_try_spec (retries df : Nat) (envO : Option Nat) :
    (CeleryTask.is_last_try { retries := retries, envRetryLimit := envO, defaultRetryLimit := df } = true ↔
      CeleryTask.get_retry_limit { retries := retries, envRetryLimit := envO, defaultRetryLimit := df } ≤ retries) ∧
    (retries < CeleryTask.get_retry_limit { retries := retries, envRetryLimit := envO, defaultRetryLimit := df } →
      CeleryTask.is_last_try { retries := retries, envRetryLimit := envO, defaultRetryLimit := df } = false) ∧
    (∀ v, CeleryTask.get_retry_limit { retries := retries, envRetryLimit := some v, defaultRetryLimit := df } = v) ∧
    CeleryTask.get_retry_limit { retries := retries, envRetryLimit := none, defaultRetryLimit := df } = df := by
  refine ⟨?_, fun h => ?_, fun v => rfl, rfl⟩
  · simp [CeleryTask.is_last_try]
  · simp [CeleryTask.is_last_try]
    exact Nat.lt_of_lt_of_le h (Nat.le_refl _)

/-! ## Theorems about the reconciliation sweeps (claim C9) -/

/-- Claim C9: a non-terminal test-run target (status new/queued/running)
older than the 14-day staleness cutoff is forced to `error` without
querying the external system, and a build-like target submitted more than
14 days ago is forced to `error` even when the external query still
reports a (completed) result. Both sweeps are modelled from the spec since
babysit.py is not among the sources. -/
theorem c9_staleness_sweep (now : Nat) (query : Nat → Option TestingFarmResult)
    (r : TFTTestRun) (b : CoprBuild) (ok : Bool) :
    ((r.status = TestingFarmResult.new ∨ r.status = TestingFarmResult.queued ∨
        r.status = TestingFarmResult.running) →
      r.submittedTime + stalenessCutoffSeconds < now →
      check_pending_testing_farm_run now query r =
        ({ r with status := TestingFarmResult.error }, false)) ∧
    (b.buildSubmittedTime + stalenessCutoffSeconds < now →
      update_copr_build now (CoprQueryResult.completed ok) b =
        { b with status := CoprBuildStatus.error }) := by
  constructor
  · intro hs hold
    unfold check_pending_testing_farm_run
    rw [if_pos hs, if_pos hold]
  · intro hold
    unfold update_copr_build
    rw [if_pos hold]
/-! ## Per-target facts about the propose-downstream loop (claims C3, C8) -/

/-- In a list zipped with itself every pair is reflexive. -/
theorem mem_zip_self {α : Type} {l : List α} {p : α × α} (h : p ∈ l.zip l) :
    p.2 = p.1 := by
  induction l with
  | nil => cases h
  | cons a l ih =>
      rw [List.zip_cons_cons, List.mem_cons] at h
      rcases h with h | h
      · rw [h]
      · exact ih h

/-- Case analysis for one position of the loop of
`ProposeDownstreamHandler.run`: a target is either returned unchanged
(skipped as already processed, or never reached because of an early
return), or it went through the `running` path, in which case its start and
finish timestamps and logs are set and it ended in `submitted`, `retry` or
`error`. -/
theorem processTargets_zip_cases (env : Nat → SyncOutcome) (celery : CeleryTask)
    (runId now : Nat) (ts : List Target) (p : Target × Target)
    (hp : p ∈ ts.zip (processTargets env celery runId now ts).1) :
    p.2 = p.1 ∨
      (shouldSkip p.1.status = false ∧ p.2.branch = p.1.branch ∧
        p.2.startTime = some now ∧ p.2.finishedTime = some now ∧
        p.2.logsSet = true ∧
        (p.2.status = TargetStatus.submitted ∨ p.2.status = TargetStatus.retry ∨
          p.2.status = TargetStatus.error)) := by
  induction ts generalizing p with
  | nil => cases hp
  | cons t ts ih =>
      by_cases hskip : shouldSkip t.status = true
      · simp only [processTargets, hskip, if_true] at hp
        rw [List.zip_cons_cons, List.mem_cons] at hp
        rcases hp with hp | hp
        · exact Or.inl (by rw [hp])
        · exact ih p hp
      · rw [Bool.not_eq_true] at hskip
        cases hsb : sync_branch celery runId (env t.branch) with
        | pr url =>
            simp only [processTargets, hskip, Bool.false_eq_true, if_false, hsb] at hp
            rw [List.zip_cons_cons, List.mem_cons] at hp
            rcases hp with hp | hp
            · refine Or.inr ?_
              rw [hp]
              exact ⟨hskip, rfl, rfl, rfl, rfl, Or.inl rfl⟩
            · exact ih p hp
        | abort rid cd =>
            simp only [processTargets, hskip, Bool.false_eq_true, if_false, hsb] at hp
            rw [List.zip_cons_cons, List.mem_cons] at hp
            rcases hp with hp | hp
            · refine Or.inr ?_
              rw [hp]
              exact ⟨hskip, rfl, rfl, rfl, rfl, Or.inr (Or.inl rfl)⟩
            · exact Or.inl (mem_zip_self hp)
        | raised msg =>
            simp only [processTargets, hskip, Bool.false_eq_true, if_false, hsb] at hp
            rw [List.zip_cons_cons, List.mem_cons] at hp
            rcases hp with hp | hp
            · refine Or.inr ?_
              rw [hp]
              exact ⟨hskip, rfl, rfl, rfl, rfl, Or.inr (Or.inr rfl)⟩
            · exact ih p hp

/-- Concrete environment for witnesses: every branch syncs successfully. -/
def wEnvSuccess : Nat → SyncOutcome := fun _ => SyncOutcome.success 7

/-- Concrete environment for witnesses: the archive is not downloadable. -/
def wEnvDownload : Nat → SyncOutcome := fun _ => SyncOutcome.downloadFailed 9

/-- Concrete Celery state for witnesses: first attempt, default limit 2. -/
def wCelery : CeleryTask :=
  { retries := 0, envRetryLimit := none, defaultRetryLimit := 2 }

/-- Concrete target for witnesses: already submitted in an earlier sweep. -/
def wSubmittedTarget : Target :=
  { branch := 0, status := TargetStatus.submitted, startTime := some 1,
    finishedTime := some 2, logsSet := true, downstreamPrUrl := some 3 }

/-- Concrete target for witnesses: still queued. -/
def wQueuedTarget : Target :=
  { branch := 1, status := TargetStatus.queued, startTime := none,
    finishedTime := none, logsSet := false, downstreamPrUrl := none }

/-- Claim C3: a target whose status is already terminal at the start of a
`ProposeDownstreamHandler.run` invocation is skipped — the whole row
(status, timestamps, results) is returned unchanged — and a non-terminal
target is only ever re-entered into `running` with the start timestamp of
this invocation (or left untouched when an earlier target's retry ended the
sweep), so a finished target never moves backward and duplicate
invocations are idempotent for it. -/
theorem c3_terminal_targets_idempotent (env : Nat → SyncOutcome)
    (celery : CeleryTask) (runId now : Nat) (ts : List Target)
    (p : Target × Target)
    (hp : p ∈ ts.zip (processTargets env celery runId now ts).1) :
    (shouldSkip p.1.status = true → p.2 = p.1) ∧
    (shouldSkip p.1.status = false →
      p.2 = p.1 ∨ (p.2.startTime = some now ∧ p.2.status ≠ TargetStatus.queued)) := by
  have h := processTargets_zip_cases env celery runId now ts p hp
  constructor
  · intro hskip
    rcases h with h | h
    · exact h
    · exact absurd h.1 (by simp [hskip])
  · intro _
    rcases h with h | h
    · exact Or.inl h
    · refine Or.inr ⟨h.2.2.1, ?_⟩
      rcases h.2.2.2.2.2 with h' | h' | h' <;> simp [h']

/-- Witness for claim C3 at a concrete input: a one-target run whose queued
target is processed successfully. -/
theorem c3_terminal_targets_idempotent_witness :
    (wQueuedTarget,
        ({ branch := 1, status := TargetStatus.submitted, startTime := some 10,
           finishedTime := some 10, logsSet := true,
           downstreamPrUrl := some 7 } : Target)).2 =
      (wQueuedTarget,
        ({ branch := 1, status := TargetStatus.submitted, startTime := some 10,
           finishedTime := some 10, logsSet := true,
           downstreamPrUrl := some 7 } : Target)).1 ∨
    ((wQueuedTarget,
        ({ branch := 1, status := TargetStatus.submitted, startTime := some 10,
           finishedTime := some 10, logsSet := true,
           downstreamPrUrl := some 7 } : Target)).2.startTime = some 10 ∧
      (wQueuedTarget,
        ({ branch := 1, status := TargetStatus.submitted, startTime := some 10,
           finishedTime := some 10, logsSet := true,
           downstreamPrUrl := some 7 } : Target)).2.status ≠ TargetStatus.queued) :=
  (c3_terminal_targets_idempotent wEnvSuccess wCelery 5 10 [wQueuedTarget]
      (wQueuedTarget,
        { branch := 1, status := TargetStatus.submitted, startTime := some 10,
          finishedTime := some 10, logsSet := true, downstreamPrUrl := some 7 })
      (by decide)).2 (by decide)

/-- Claim C8: a target of this invocation is either left completely
untouched (it was skipped as terminal — excluded here — or never reached
because an earlier target's scheduled retry returned early), or it was
entered into `running`, and then the finish timestamp and the captured logs
are set whichever exit its processing took: `submitted`, `retry` or
`error`. -/
theorem c8_cleanup_on_every_exit (env : Nat → SyncOutcome)
    (celery : CeleryTask) (runId now : Nat) (ts : List Target)
    (p : Target × Target)
    (hp : p ∈ ts.zip (processTargets env celery runId now ts).1)
    (_hns : shouldSkip p.1.status = false) :
    p.2 = p.1 ∨
      (p.2.finishedTime = some now ∧ p.2.logsSet = true ∧
        (p.2.status = TargetStatus.submitted ∨ p.2.status = TargetStatus.retry ∨
          p.2.status = TargetStatus.error)) := by
  rcases processTargets_zip_cases env celery runId now ts p hp with h | h
  · exact Or.inl h
  · exact Or.inr ⟨h.2.2.2.1, h.2.2.2.2.1, h.2.2.2.2.2⟩

/-- Witness for claim C8 at a concrete input: the retry exit path of a
queued target whose archive is not downloadable yet. -/
theorem c8_cleanup_on_every_exit_witness :
    (wQueuedTarget,
        ({ branch := 1, status := TargetStatus.retry, startTime := some 10,
           finishedTime := some 10, logsSet := true,
           downstreamPrUrl := none } : Target)).2 =
      (wQueuedTarget,
        ({ branch := 1, status := TargetStatus.retry, startTime := some 10,
           finishedTime := some 10, logsSet := true,
           downstreamPrUrl := none } : Target)).1 ∨
    ((wQueuedTarget,
        ({ branch := 1, status := TargetStatus.retry, startTime := some 10,
           finishedTime := some 10, logsSet := true,
           downstreamPrUrl := none } : Target)).2.finishedTime = some 10 ∧
      (wQueuedTarget,
        ({ branch := 1, status := TargetStatus.retry, startTime := some 10,
           finishedTime := some 10, logsSet := true,
           downstreamPrUrl := none } : Target)).2.logsSet = true ∧
      ((wQueuedTarget,
          ({ branch := 1, status := TargetStatus.retry, startTime := some 10,
             finishedTime := some 10, logsSet := true,
             downstreamPrUrl := none } : Target)).2.status = TargetStatus.submitted ∨
        (wQueuedTarget,
          ({ branch := 1, status := TargetStatus.retry, startTime := some 10,
             finishedTime := some 10, logsSet := true,
             downstreamPrUrl := none } : Target)).2.status = TargetStatus.retry ∨
        (wQueuedTarget,
          ({ branch := 1, status := TargetStatus.retry, startTime := some 10,
             finishedTime := some 10, logsSet := true,
             downstreamPrUrl := none } : Target)).2.status = TargetStatus.error)) :=
  c8_cleanup_on_every_exit wEnvDownload wCelery 5 10 [wQueuedTarget]
    (wQueuedTarget,
      { branch := 1, status := TargetStatus.retry, startTime := some 10,
        finishedTime := some 10, logsSet := true, downstreamPrUrl := none })
    (by decide) (by decide)

/-! ## Transient and permanent failure handling (claims C4, C5) -/

/-- Claim C4: when the recognized transient condition (the upstream archive
is not downloadable yet) hits and the attempt is not the last try, the
target's status is set to `retry` and it is rescheduled with kwargs
carrying the parent run's id — and an invocation that receives that id
resumes the same run instead of creating a new one; when it is the last
try, the exception is re-raised rather than swallowed, so the target ends
in `error`. -/
theorem c4_transient_retry_semantics (celery : CeleryTask)
    (runId msg now : Nat) (env : Nat → SyncOutcome) (t : Target)
    (ts : List Target) (r : ProposeDownstreamRun) (branches : List Nat) :
    (celery.is_last_try = false →
      sync_branch celery runId (SyncOutcome.downloadFailed msg) =
        SyncBranchResult.abort runId (60 * 2 ^ celery.retries)) ∧
    (shouldSkip t.status = false →
      env t.branch = SyncOutcome.downloadFailed msg →
      celery.is_last_try = false →
      (processTargets env celery runId now (t :: ts)).1.head? =
        some { t with
          status := TargetStatus.retry
          startTime := some now
          finishedTime := some now
          logsSet := true }) ∧
    (celery.is_last_try = true →
      sync_branch celery runId (SyncOutcome.downloadFailed msg) =
        SyncBranchResult.raised msg) ∧
    (shouldSkip t.status = false →
      env t.branch = SyncOutcome.downloadFailed msg →
      celery.is_last_try = true →
      (processTargets env celery runId now (t :: ts)).1.head? =
        some { t with
          status := TargetStatus.error
          startTime := some now
          finishedTime := some now
          logsSet := true }) ∧
    get_or_create_propose_downstream_run (some r) branches = r := by
  refine ⟨fun h => ?_, fun hns henv hlast => ?_, fun h => ?_,
    fun hns henv hlast => ?_, rfl⟩
  · simp [sync_branch, h]
  · simp only [processTargets, hns, Bool.false_eq_true, if_false, henv,
      sync_branch, hlast]
    rfl
  · simp [sync_branch, h]
  · simp only [processTargets, hns, Bool.false_eq_true, if_false, henv,
      sync_branch, hlast, if_true]
    rfl

/-- Scenario environment for claim C5: branch 1 hits a permanent error,
every other branch succeeds. -/
def c5env : Nat → SyncOutcome := fun b =>
  if b = 1 then SyncOutcome.otherError 42 else SyncOutcome.success 7

/-- A fresh queued target on the given branch. -/
def queuedTarget (b : Nat) : Target :=
  { branch := b, status := TargetStatus.queued, startTime := none,
    finishedTime := none, logsSet := false, downstreamPrUrl := none }

/-- Scenario run for claim C5: three queued targets in one run. -/
def c5run : ProposeDownstreamRun :=
  { status := RunStatus.running,
    targets := [queuedTarget 0, queuedTarget 1, queuedTarget 2] }

/-- Claim C5: a permanent (non-transient) exception while processing one
target is caught at that target — its error text is recorded under its
branch and the loop continues with the remaining targets — and in the
three-target scenario with one permanent failure the two successes retain
`submitted`, the failed target is `error`, and the run's aggregate status
is `error` (with the task reporting failure). -/
theorem c5_partial_failure_isolation (env : Nat → SyncOutcome)
    (celery : CeleryTask) (runId now msg : Nat) (t : Target) (ts : List Target) :
    (shouldSkip t.status = false → env t.branch = SyncOutcome.otherError msg →
      processTargets env celery runId now (t :: ts) =
        ({ t with
            status := TargetStatus.error
            startTime := some now
            finishedTime := some now
            logsSet := true } :: (processTargets env celery runId now ts).1,
          (t.branch, msg) :: (processTargets env celery runId now ts).2.1,
          (processTargets env celery runId now ts).2.2)) ∧
    ((ProposeDownstreamHandler_run c5env wCelery 5 10 c5run).1.status =
        RunStatus.error ∧
      (ProposeDownstreamHandler_run c5env wCelery 5 10 c5run).1.targets.map
          Target.status =
        [TargetStatus.submitted, TargetStatus.error, TargetStatus.submitted] ∧
      (ProposeDownstreamHandler_run c5env wCelery 5 10 c5run).2.success = false) := by
  constructor
  · intro hns henv
    simp only [processTargets, hns, Bool.false_eq_true, if_false, henv,
      sync_branch]
  · decide

/-! ## Aggregate run status (claim C2) -/

/-- When the sweep ran to completion (no early retry return), the collected
`errors` dictionary is empty exactly when no target processed in this
invocation ended in `error`. -/
theorem processTargets_no_abort_errors (env : Nat → SyncOutcome)
    (celery : CeleryTask) (runId now : Nat) (ts : List Target)
    (h : (processTargets env celery runId now ts).2.2 = none) :
    ((processTargets env celery runId now ts).2.1 = [] ↔
      ∀ p ∈ ts.zip (processTargets env celery runId now ts).1,
        shouldSkip p.1.status = false → p.2.status ≠ TargetStatus.error) := by
  induction ts with
  | nil => simp [processTargets]
  | cons t ts ih =>
      by_cases hskip : shouldSkip t.status = true
      · simp only [processTargets, hskip, if_true] at h ⊢
        rw [List.zip_cons_cons]
        constructor
        · intro he p hp
          rcases List.mem_cons.mp hp with hp | hp
          · intro hns
            rw [hp] at hns ⊢
            exact absurd hns (by simp [hskip])
          · exact (ih h).mp he p hp
        · intro hall
          exact (ih h).mpr fun p hp => hall p (List.mem_cons_of_mem _ hp)
      · rw [Bool.not_eq_true] at hskip
        cases hsb : sync_branch celery runId (env t.branch) with
        | pr url =>
            simp only [processTargets, hskip, Bool.false_eq_true, if_false,
              hsb] at h ⊢
            rw [List.zip_cons_cons]
            constructor
            · intro he p hp
              rcases List.mem_cons.mp hp with hp | hp
              · intro _
                rw [hp]
                simp
              · exact (ih h).mp he p hp
            · intro hall
              exact (ih h).mpr fun p hp => hall p (List.mem_cons_of_mem _ hp)
        | abort rid cd =>
            simp only [processTargets, hskip, Bool.false_eq_true, if_false,
              hsb] at h
            cases h
        | raised msg =>
            simp only [processTargets, hskip, Bool.false_eq_true, if_false,
              hsb] at h ⊢
            rw [List.zip_cons_cons]
            constructor
            · intro he
              cases he
            · intro hall
              have := hall
                  (t, { t with
                    status := TargetStatus.error
                    startTime := some now
                    finishedTime := some now
                    logsSet := true })
                  (List.mem_cons_self _ _) hskip
              exact absurd rfl this

/-- When the sweep ran to completion (no early retry return), every target
of the run is terminal afterwards: no target is left in `retry`. -/
theorem processTargets_no_abort_terminal (env : Nat → SyncOutcome)
    (celery : CeleryTask) (runId now : Nat) (ts : List Target)
    (h : (processTargets env celery runId now ts).2.2 = none) :
    ∀ p ∈ ts.zip (processTargets env celery runId now ts).1,
      shouldSkip p.2.status = true := by
  induction ts with
  | nil => intro p hp; cases hp
  | cons t ts ih =>
      by_cases hskip : shouldSkip t.status = true
      · simp only [processTargets, hskip, if_true] at h ⊢
        intro p hp
        rcases List.mem_cons.mp (by rwa [List.zip_cons_cons] at hp) with hp | hp
        · rw [hp]
          exact hskip
        · exact ih h p hp
      · rw [Bool.not_eq_true] at hskip
        cases hsb : sync_branch celery runId (env t.branch) with
        | pr url =>
            simp only [processTargets, hskip, Bool.false_eq_true, if_false,
              hsb] at h ⊢
            intro p hp
            rcases List.mem_cons.mp (by rwa [List.zip_cons_cons] at hp) with hp | hp
            · rw [hp]
              simp [shouldSkip]
            · exact ih h p hp
        | abort rid cd =>
            simp only [processTargets, hskip, Bool.false_eq_true, if_false,
              hsb] at h
            cases h
        | raised msg =>
            simp only [processTargets, hskip, Bool.false_eq_true, if_false,
              hsb] at h ⊢
            intro p hp
            rcases List.mem_cons.mp (by rwa [List.zip_cons_cons] at hp) with hp | hp
            · rw [hp]
              simp [shouldSkip]
            · exact ih h p hp

/-- Claim C2, amended: after a full sweep with no target left in retry
(no early retry return), the run's aggregate status is set to `error` iff
at least one target processed in THIS invocation ended in `error`, and to
`finished` otherwise; all targets are then terminal. A target that reached
`error` in an earlier, retried invocation is skipped and does not count —
see the counterexample for the original claim. -/
theorem c2_aggregate_status_amended (env : Nat → SyncOutcome)
    (celery : CeleryTask) (runId now : Nat) (run : ProposeDownstreamRun)
    (h : (processTargets env celery runId now run.targets).2.2 = none) :
    ((ProposeDownstreamHandler_run env celery runId now run).1.status =
        RunStatus.error ↔
      ∃ p ∈ run.targets.zip
          (ProposeDownstreamHandler_run env celery runId now run).1.targets,
        shouldSkip p.1.status = false ∧ p.2.status = TargetStatus.error) ∧
    ((ProposeDownstreamHandler_run env celery runId now run).1.status =
        RunStatus.error ∨
      (ProposeDownstreamHandler_run env celery runId now run).1.status =
        RunStatus.finished) ∧
    (∀ p ∈ run.targets.zip
        (ProposeDownstreamHandler_run env celery runId now run).1.targets,
      shouldSkip p.2.status = true) := by
  have herrs := processTargets_no_abort_errors env celery runId now run.targets h
  have hterm := processTargets_no_abort_terminal env celery runId now run.targets h
  simp only [ProposeDownstreamHandler_run, h]
  by_cases hemp : (processTargets env celery runId now run.targets).2.1 = []
  · rw [hemp]
    simp only [List.isEmpty_nil, if_true]
    refine ⟨?_, by simp, hterm⟩
    constructor
    · intro hst
      exact absurd hst (by simp)
    · rintro ⟨p, hp, hns, herr⟩
      exact absurd herr (herrs.mp hemp p hp hns)
  · have hne : (processTargets env celery runId now run.targets).2.1.isEmpty = false := by
      cases hlist : (processTargets env celery runId now run.targets).2.1 with
      | nil => exact absurd hlist hemp
      | cons e es => rfl
    rw [hne]
    simp only [Bool.false_eq_true, if_false]
    refine ⟨?_, by simp, hterm⟩
    constructor
    · intro _
      have hnall : ¬ ∀ p ∈ run.targets.zip
          (processTargets env celery runId now run.targets).1,
          shouldSkip p.1.status = false → p.2.status ≠ TargetStatus.error :=
        fun hall => hemp (herrs.mpr hall)
      push_neg at hnall
      obtain ⟨p, hp, hns, herr⟩ := hnall
      exact ⟨p, hp, hns, herr⟩
    · intro _
      simp

/-- Run for the claim C2 witness: one queued target, no prior history. -/
def c2wRun : ProposeDownstreamRun :=
  { status := RunStatus.running, targets := [wQueuedTarget] }

/-- Witness for claim C2 (amended) at a concrete input: a one-target run
processed successfully to the end. -/
theorem c2_aggregate_status_amended_witness :
    ((ProposeDownstreamHandler_run wEnvSuccess wCelery 5 10 c2wRun).1.status =
        RunStatus.error ↔
      ∃ p ∈ c2wRun.targets.zip
          (ProposeDownstreamHandler_run wEnvSuccess wCelery 5 10 c2wRun).1.targets,
        shouldSkip p.1.status = false ∧ p.2.status = TargetStatus.error) ∧
    ((ProposeDownstreamHandler_run wEnvSuccess wCelery 5 10 c2wRun).1.status =
        RunStatus.error ∨
      (ProposeDownstreamHandler_run wEnvSuccess wCelery 5 10 c2wRun).1.status =
        RunStatus.finished) ∧
    (∀ p ∈ c2wRun.targets.zip
        (ProposeDownstreamHandler_run wEnvSuccess wCelery 5 10 c2wRun).1.targets,
      shouldSkip p.2.status = true) :=
  c2_aggregate_status_amended wEnvSuccess wCelery 5 10 c2wRun (by decide)

/-- Run for the claim C2 counterexample: its first target already ended in
`error` in an earlier, retried invocation; the second is still queued. -/
def c2badRun : ProposeDownstreamRun :=
  { status := RunStatus.running,
    targets :=
      [ { branch := 0, status := TargetStatus.error, startTime := some 1,
          finishedTime := some 2, logsSet := true, downstreamPrUrl := none },
        wQueuedTarget ] }

/-- Claim C2, counterexample: in a run whose first target ended in `error`
in an earlier invocation (and is skipped now) and whose second target
succeeds, the full sweep leaves no target in retry and one target ended in
`error`, yet the aggregate status is set to `finished` — not `error` as the
claim requires. -/
theorem c2_aggregate_status_counterexample :
    (ProposeDownstreamHandler_run wEnvSuccess wCelery 5 10 c2badRun).1.status =
      RunStatus.finished ∧
    (∃ t ∈ (ProposeDownstreamHandler_run wEnvSuccess wCelery 5 10 c2badRun).1.targets,
      t.status = TargetStatus.error) ∧
    (∀ t ∈ (ProposeDownstreamHandler_run wEnvSuccess wCelery 5 10 c2badRun).1.targets,
      shouldSkip t.status = true) := by decide

/-! ## Early return on a scheduled retry (claim C10) -/

/-- When the sweep reaches a non-terminal target whose archive download
fails transiently and the attempt is not the last try, the loop stops
there: the target goes to `retry`, the targets after it are untouched, and
the loop reports the early-return `TaskResults` with success. The targets
before it must each be skipped or not hit the transient condition. -/
theorem processTargets_abort_at (env : Nat → SyncOutcome)
    (celery : CeleryTask) (runId now msg : Nat) (t : Target)
    (ts₂ : List Target) (ht : shouldSkip t.status = false)
    (henv : env t.branch = SyncOutcome.downloadFailed msg)
    (hlast : celery.is_last_try = false) :
    ∀ ts₁ : List Target,
      (∀ u ∈ ts₁, shouldSkip u.status = true ∨
        ∀ m, env u.branch ≠ SyncOutcome.downloadFailed m) →
      ∃ pre errs, pre.length = ts₁.length ∧
        processTargets env celery runId now (ts₁ ++ t :: ts₂) =
          (pre ++ ({ t with
              status := TargetStatus.retry
              startTime := some now
              finishedTime := some now
              logsSet := true } :: ts₂),
            errs,
            some { success := true
                   msg := "Not able to download archive. Task will be retried." }) := by
  intro ts₁
  induction ts₁ with
  | nil =>
      intro _
      refine ⟨[], [], rfl, ?_⟩
      simp only [List.nil_append, processTargets, ht, Bool.false_eq_true,
        if_false, henv, sync_branch, hlast]
  | cons u ts₁ ih =>
      intro hpre
      obtain ⟨pre, errs, hlen, heq⟩ :=
        ih fun v hv => hpre v (List.mem_cons_of_mem _ hv)
      by_cases hus : shouldSkip u.status = true
      · refine ⟨u :: pre, errs, by simp [hlen], ?_⟩
        simp [List.cons_append, processTargets, hus, heq]
      · rw [Bool.not_eq_true] at hus
        rcases hpre u (List.mem_cons_self _ _) with hu | hu
        · exact absurd hu (by simp [hus])
        · cases hout : env u.branch with
          | success url =>
              refine ⟨{ u with
                  status := TargetStatus.submitted
                  startTime := some now
                  finishedTime := some now
                  logsSet := true
                  downstreamPrUrl := some url } :: pre, errs, by simp [hlen], ?_⟩
              simp [List.cons_append, processTargets, hus, hout, sync_branch, heq]
          | downloadFailed m => exact absurd hout (hu m)
          | otherError m =>
              refine ⟨{ u with
                  status := TargetStatus.error
                  startTime := some now
                  finishedTime := some now
                  logsSet := true } :: pre, (u.branch, m) :: errs,
                by simp [hlen], ?_⟩
              simp [List.cons_append, processTargets, hus, hout, sync_branch, heq]

/-- Claim C10: whenever the transient archive-download condition puts a
target into `retry` (and every earlier target was either skipped or did not
hit the transient condition), `ProposeDownstreamHandler.run` returns
immediately with `TaskResults` success — the scheduled retry is reported as
a success —, no later target of the run is processed in that invocation
(the suffix after the retried target is returned unchanged), and the run's
aggregate status is left unchanged. -/
theorem c10_retry_returns_early (env : Nat → SyncOutcome)
    (celery : CeleryTask) (runId now msg : Nat) (run : ProposeDownstreamRun)
    (ts₁ : List Target) (t : Target) (ts₂ : List Target)
    (hsplit : run.targets = ts₁ ++ t :: ts₂)
    (hpre : ∀ u ∈ ts₁, shouldSkip u.status = true ∨
      ∀ m, env u.branch ≠ SyncOutcome.downloadFailed m)
    (ht : shouldSkip t.status = false)
    (henv : env t.branch = SyncOutcome.downloadFailed msg)
    (hlast : celery.is_last_try = false) :
    (ProposeDownstreamHandler_run env celery runId now run).2 =
      { success := true
        msg := "Not able to download archive. Task will be retried." } ∧
    (ProposeDownstreamHandler_run env celery runId now run).1.status =
      run.status ∧
    ∃ pre, pre.length = ts₁.length ∧
      (ProposeDownstreamHandler_run env celery runId now run).1.targets =
        pre ++ ({ t with
            status := TargetStatus.retry
            startTime := some now
            finishedTime := some now
            logsSet := true } :: ts₂) := by
  obtain ⟨pre, errs, hlen, heq⟩ :=
    processTargets_abort_at env celery runId now msg t ts₂ ht henv hlast ts₁ hpre
  simp only [ProposeDownstreamHandler_run, hsplit, heq]
  exact ⟨by trivial, by trivial, pre, hlen, by trivial⟩

/-- Run for the claim C10 witness: two queued targets, the first hitting
the transient download failure. -/
def c10Run : ProposeDownstreamRun :=
  { status := RunStatus.running, targets := [wQueuedTarget, queuedTarget 2] }

/-- Witness for claim C10 at a concrete input: the first of two queued
targets hits the transient condition on a non-final attempt. -/
theorem c10_retry_returns_early_witness :
    (ProposeDownstreamHandler_run wEnvDownload wCelery 5 10 c10Run).2 =
      { success := true
        msg := "Not able to download archive. Task will be retried." } ∧
    (ProposeDownstreamHandler_run wEnvDownload wCelery 5 10 c10Run).1.status =
      c10Run.status ∧
    ∃ pre, pre.length = ([] : List Target).length ∧
      (ProposeDownstreamHandler_run wEnvDownload wCelery 5 10 c10Run).1.targets =
        pre ++ ({ wQueuedTarget with
            status := TargetStatus.retry
            startTime := some 10
            finishedTime := some 10
            logsSet := true } :: [queuedTarget 2]) :=
  c10_retry_returns_early wEnvDownload wCelery 5 10 9 c10Run [] wQueuedTarget
    [queuedTarget 2] rfl (by intro u hu; exact absurd hu (List.not_mem_nil u))
    (by decide) rfl (by decide)

/-! ## Comment parsing facts (claim C7) -/

/-- Unfolding equation of `pySplitWs`. -/
theorem pySplitWs_eq (maxsplit : Nat) (s : List Char) :
    pySplitWs maxsplit s =
      match s.dropWhile isPySpace with
      | [] => []
      | c :: cs =>
        match maxsplit with
        | 0 => [c :: cs]
        | m + 1 =>
            ((c :: cs).takeWhile fun x => !isPySpace x) ::
              pySplitWs m ((c :: cs).dropWhile fun x => !isPySpace x) := by
  rw [pySplitWs]

/-- Python split with `maxsplit=m` produces at most `m + 1` pieces. -/
theorem pySplitWs_length (m : Nat) : ∀ s : List Char,
    (pySplitWs m s).length ≤ m + 1 := by
  induction m with
  | zero =>
      intro s
      rw [pySplitWs_eq]
      cases h : s.dropWhile isPySpace with
      | nil => simp
      | cons c cs => simp
  | succ m ih =>
      intro s
      rw [pySplitWs_eq]
      cases h : s.dropWhile isPySpace with
      | nil => simp
      | cons c cs =>
          simp only [List.length_cons]
          exact Nat.succ_le_succ (ih _)

/-- One unfolding step of the line loop. -/
theorem findPackitCommand_cons_eq (pfx l : List Char) (ls : List (List Char)) :
    findPackitCommand pfx (l :: ls) =
      (if (pyStrip l).isEmpty then findPackitCommand pfx ls
       else
        match pySplitWs 3 (pyStrip l) with
        | [] => findPackitCommand pfx ls
        | packitMark :: packitCommand =>
            if packitMark = pfx ∧ packitCommand ≠ [] then packitCommand
            else findPackitCommand pfx ls) := rfl

/-- Per-line behaviour of the line loop: a non-qualifying line is passed
over; a qualifying line ends the loop with everything after its first
token (a non-empty list). -/
theorem findPackitCommand_cons_cases (pfx l : List Char)
    (ls : List (List Char)) :
    (lineQualifies pfx l = false ∧
      findPackitCommand pfx (l :: ls) = findPackitCommand pfx ls) ∨
    (lineQualifies pfx l = true ∧
      findPackitCommand pfx (l :: ls) = (pySplitWs 3 (pyStrip l)).tail ∧
      (pySplitWs 3 (pyStrip l)).tail ≠ []) := by
  rw [findPackitCommand_cons_eq]
  unfold lineQualifies
  by_cases hemp : (pyStrip l).isEmpty = true
  · left
    constructor
    · rw [List.isEmpty_iff.mp hemp]
      rfl
    · simp only [hemp, if_true]
  · rw [Bool.not_eq_true] at hemp
    simp only [hemp, Bool.false_eq_true, if_false]
    cases hsp : pySplitWs 3 (pyStrip l) with
    | nil => left; exact ⟨rfl, rfl⟩
    | cons mk cmd =>
        by_cases hcond : mk = pfx ∧ cmd ≠ []
        · right
          refine ⟨?_, ?_, ?_⟩
          · simp [hcond.1, hcond.2]
          · show (if mk = pfx ∧ cmd ≠ [] then cmd
                else findPackitCommand pfx ls) = (mk :: cmd).tail
            rw [if_pos hcond]
            rfl
          · show (mk :: cmd).tail ≠ []
            exact hcond.2
        · left
          constructor
          · by_cases hm : mk = pfx
            · have hc : cmd = [] := by
                by_contra hc
                exact hcond ⟨hm, hc⟩
              simp [hm, hc]
            · simp [hm]
          · show (if mk = pfx ∧ cmd ≠ [] then cmd
                else findPackitCommand pfx ls) = findPackitCommand pfx ls
            rw [if_neg hcond]

/-- The line loop returns nothing exactly when no line qualifies. -/
theorem findPackitCommand_eq_nil (pfx : List Char) (ls : List (List Char)) :
    findPackitCommand pfx ls = [] ↔ ∀ l ∈ ls, lineQualifies pfx l = false := by
  induction ls with
  | nil => simp [findPackitCommand]
  | cons l ls ih =>
      rcases findPackitCommand_cons_cases pfx l ls with ⟨hq, hstep⟩ |
        ⟨hq, hstep, htne⟩
      · rw [hstep, ih, List.forall_mem_cons, hq]
        simp
      · rw [hstep, List.forall_mem_cons, hq]
        simp [htne]

/-- When the line loop returns a command, it comes from the first
qualifying line, as everything after that line's first token. -/
theorem findPackitCommand_first (pfx : List Char) :
    ∀ ls : List (List Char), findPackitCommand pfx ls ≠ [] →
      ∃ ls₁ l ls₂, ls = ls₁ ++ l :: ls₂ ∧
        (∀ l' ∈ ls₁, lineQualifies pfx l' = false) ∧
        lineQualifies pfx l = true ∧
        findPackitCommand pfx ls = (pySplitWs 3 (pyStrip l)).tail := by
  intro ls
  induction ls with
  | nil => intro hne; simp [findPackitCommand] at hne
  | cons l ls ih =>
      intro hne
      rcases findPackitCommand_cons_cases pfx l ls with ⟨hq, hstep⟩ |
        ⟨hq, hstep, _⟩
      · obtain ⟨ls₁, l', ls₂, hsplit, hpre, hql, heq⟩ :=
          ih (by rwa [hstep] at hne)
        refine ⟨l :: ls₁, l', ls₂, ?_, ?_, hql, ?_⟩
        · rw [List.cons_append, hsplit]
        · intro x hx
          rcases List.mem_cons.mp hx with hx | hx
          · rw [hx]; exact hq
          · exact hpre x hx
        · rw [hstep, heq]
      · refine ⟨[], l, ls, rfl, ?_, hq, hstep⟩
        intro x hx
        exact absurd hx (List.not_mem_nil x)

/-- Claim C7: `get_packit_commands_from_comment` returns no command exactly
when the comment is blank or no line has the bot-mention mark as its first
whitespace-delimited token followed by at least one further token;
otherwise it returns what follows the mark on the first such line — the
command token plus at most 2 further elements, the last keeping the
remainder of the line. -/
theorem c7_get_packit_commands_spec (comment pfx : List Char) :
    (get_packit_commands_from_comment comment pfx = [] ↔
      (pyStrip comment = [] ∨
        ∀ l ∈ (pyStrip comment).splitOn '\n', lineQualifies pfx l = false)) ∧
    (get_packit_commands_from_comment comment pfx ≠ [] →
      (get_packit_commands_from_comment comment pfx).length ≤ 3 ∧
      ∃ ls₁ l ls₂, (pyStrip comment).splitOn '\n' = ls₁ ++ l :: ls₂ ∧
        (∀ l' ∈ ls₁, lineQualifies pfx l' = false) ∧
        lineQualifies pfx l = true ∧
        get_packit_commands_from_comment comment pfx =
          (pySplitWs 3 (pyStrip l)).tail) := by
  by_cases hemp : (pyStrip comment).isEmpty = true
  · simp only [get_packit_commands_from_comment, hemp, if_true]
    constructor
    · constructor
      · intro _
        exact Or.inl (List.isEmpty_iff.mp hemp)
      · intro _
        trivial
    · intro hne
      exact (hne (by trivial)).elim
  · rw [Bool.not_eq_true] at hemp
    have hnil : pyStrip comment ≠ [] := by
      intro hc
      rw [hc] at hemp
      simp at hemp
    simp only [get_packit_commands_from_comment, hemp, Bool.false_eq_true,
      if_false]
    constructor
    · rw [findPackitCommand_eq_nil]
      exact ⟨fun h => Or.inr h, fun h => h.elim (fun h => absurd h hnil) id⟩
    · intro hne
      obtain ⟨ls₁, l, ls₂, hsplit, hpre, hq, heq⟩ :=
        findPackitCommand_first pfx _ hne
      refine ⟨?_, ls₁, l, ls₂, hsplit, hpre, hq, heq⟩
      rw [heq]
      have hlen := pySplitWs_length 3 (pyStrip l)
      calc (pySplitWs 3 (pyStrip l)).tail.length
          = (pySplitWs 3 (pyStrip l)).length - 1 := by
            rw [List.length_tail]
        _ ≤ 4 - 1 := Nat.sub_le_sub_right hlen 1
        _ = 3 := rfl
